import Mathlib

/-!
Shallow embedding of the revogression core (src/creature.rs, src/evolution.rs).

Floating-point (`f32`) arithmetic is modelled over `ℚ`; machine integers
(`u8` fields `generation` and the exponent `x`) are modelled as `Nat` with an
explicit `% 256` at the operations that can overflow.  Randomness (the
thread-local RNG read throughout construction and mutation) is modelled as an
explicit stream of rational draws consumed in exactly the order the source
calls the RNG; a distribution sample (`rng.sample(tri)`, `rng.sample(norm)`)
consumes one draw whose value is the sampled number (for the zero-mean
Gaussians of mutation the draw is a standard-normal value scaled by the
mutation step so that the mutation speed stays observable).  HashMaps are
modelled as association lists; Rust panics are modelled with `Except String`
at the functions that can panic.
-/

/-- A stream of random draws: the values produced by the thread-local RNG,
in the order the source consumes them.  An exhausted stream yields 0. -/
abbrev Draws := List ℚ

/-- Pop one draw from the stream (0 when exhausted). -/
def draw : Draws → ℚ × Draws
  | [] => (0, [])
  | a :: rest => (a, rest)

/-- `Coefficients { c, b, z: f32, x: u8 }` from src/creature.rs. -/
structure Coefficients where
  c : ℚ
  b : ℚ
  z : ℚ
  x : Nat
deriving Repr, DecidableEq

/-- `Coefficients::calculate`: `c * (b*value + z).powi(x)`. -/
def Coefficients.calculate (co : Coefficients) (param_value : ℚ) : ℚ :=
  co.c * (co.b * param_value + co.z) ^ co.x

/-- `Coefficients::new`: draws consumed in source order — choice for `c`
(else a triangular sample), choice for `b`, choice for `z`, the two
negation coin flips, then the draw deciding the exponent `x`. -/
def Coefficients.new (s : Draws) : Coefficients × Draws :=
  let (u1, s) := draw s
  let (c, s) := if u1 < 0.4 then ((1 : ℚ), s) else draw s
  let (u2, s) := draw s
  let (b, s) := if u2 < 0.3 then ((1 : ℚ), s) else draw s
  let (u3, s) := draw s
  let (z, s) := if u3 < 0.4 then ((0 : ℚ), s) else draw s
  let (u4, s) := draw s
  let c := if u4 < 0.5 then -c else c
  let (u5, s) := draw s
  let b := if u5 < 0.5 then -b else b
  let (u6, s) := draw s
  let x : Nat := if 0 ≤ u6 ∧ u6 ≤ 0.4 then 1 else if 0.4 ≤ u6 ∧ u6 ≤ 0.75 then 2 else 3
  (⟨c, b, z, x⟩, s)

/-- `LayerModifiers` from src/creature.rs; the `HashMap<String, Coefficients>`
is modelled as an association list with unique keys. -/
structure LayerModifiers where
  modifiers : List (String × Coefficients)
  previous_layer_coefficients : Option Coefficients
  layer_bias : ℚ
deriving Repr, DecidableEq

/-- The per-parameter inclusion loop of `LayerModifiers::new`: for each
candidate parameter one draw decides inclusion; an included parameter
receives a fresh `Coefficients`. -/
def modifiersLoop (parameter_options : List String) (scalar : ℚ) (s : Draws) :
    List (String × Coefficients) × Draws :=
  match parameter_options with
  | [] => ([], s)
  | p :: rest =>
    let (u, s) := draw s
    if u < scalar then
      let (co, s) := Coefficients.new s
      let (restMods, s) := modifiersLoop rest scalar s
      ((p, co) :: restMods, s)
    else
      modifiersLoop rest scalar s

/-- `LayerModifiers::new`: inclusion loop, then the previous-layer term
(absent exactly on the first layer), then the bias (0 with probability 0.2,
else a Normal(0, 0.1) sample modelled as 0.1 times a standard-normal draw). -/
def LayerModifiers.new (first_layer : Bool) (parameter_options : List String) (s : Draws) :
    LayerModifiers × Draws :=
  let param_usage_scalar : ℚ := 2.5 / (parameter_options.length + 1)
  let (modifiers, s) := modifiersLoop parameter_options param_usage_scalar s
  let (previous_layer_coefficients, s) :=
    match first_layer with
    | false =>
      let (co, s) := Coefficients.new s
      (some co, s)
    | true => (none, s)
  let (u, s) := draw s
  let (layer_bias, s) :=
    if 0 ≤ u ∧ u ≤ 0.2 then ((0 : ℚ), s)
    else
      let (n, s) := draw s
      ((0.1 : ℚ) * n, s)
  (⟨modifiers, previous_layer_coefficients, layer_bias⟩, s)

/-- The `Creature` struct: an equation of layers, an optional cached error,
and the `u8` generation counter (as `Nat`, wrapped mod 256 where it moves). -/
structure Creature where
  equation : List LayerModifiers
  cached_error_sum : Option ℚ
  generation : Nat
deriving Repr, DecidableEq

/-- `MutateSpeed` from src/creature.rs. -/
inductive MutateSpeed where
  | Fine
  | Fast
deriving Repr, DecidableEq

/-- The standard-deviation step selected by `Creature::mutate` per speed. -/
def modifyValue : MutateSpeed → ℚ
  | MutateSpeed.Fine => 0.005
  | MutateSpeed.Fast => 0.05

/-- `num_layers()`: a uniform choice from the slice `[1,1,1,2,2,3]`; the
draw encodes the chosen index. -/
def num_layers (u : ℚ) : Nat :=
  [1, 1, 1, 2, 2, 3].getD (⌊u⌋.toNat % 6) 1

/-- The layer-construction loop of `Creature::new`: builds `count` layers,
the flag marking whether the layer being built is the first. -/
def buildLayers (parameter_options : List String) :
    Nat → Bool → Draws → List LayerModifiers × Draws
  | 0, _, s => ([], s)
  | count + 1, first, s =>
    let (lm, s) := LayerModifiers.new first parameter_options s
    let (rest, s) := buildLayers parameter_options count false s
    (lm :: rest, s)

/-- `Creature::new`: draw the layer count, cap it at `max_layers`, build the
layers (first layer flagged), generation 1, no cached error. -/
def Creature.new (parameter_options : List String) (max_layers : Nat) (s : Draws) :
    Creature × Draws :=
  let (u, s) := draw s
  let nl := num_layers u
  let layer_limit := if nl > max_layers then max_layers else nl
  let (equation, s) := buildLayers parameter_options layer_limit true s
  (⟨equation, none, 1⟩, s)

/-- A single row of input data: parameter name to value, as in
`HashMap<String, f32>`. -/
abbrev Row := List (String × ℚ)

/-- The inner-sum contribution of one layer for one input row: every input
parameter present in the layer's `modifiers` contributes
`coefficients.calculate(param_value)`. -/
def paramContribution (lm : LayerModifiers) (parameters : Row) : ℚ :=
  (parameters.map (fun pv =>
    match lm.modifiers.lookup pv.1 with
    | some coefficients => coefficients.calculate pv.2
    | none => 0)).sum

/-- The previous-layer contribution of one layer given the prior total. -/
def prevContribution (lm : LayerModifiers) (total : ℚ) : ℚ :=
  match lm.previous_layer_coefficients with
  | some t_coefficients => t_coefficients.calculate total
  | none => 0

/-- One iteration of the layer loop of `Creature::calculate`.  The state is
the pair `(inner_total, total)`; note that the source initializes
`inner_total` once, outside the loop, so it carries over between layers. -/
def layerStep (parameters : Row) (st : ℚ × ℚ) (lm : LayerModifiers) : ℚ × ℚ :=
  let inner_total := st.1 + paramContribution lm parameters
  let inner_total := inner_total + prevContribution lm st.2
  (inner_total, inner_total + lm.layer_bias)

/-- `Creature::calculate`: fold the layer loop from `(0, 0)` and return the
final `total`. -/
def Creature.calculate (cr : Creature) (parameters : Row) : ℚ :=
  (cr.equation.foldl (layerStep parameters) (0, 0)).2

/-- `Creature::create_many_parallel` (and `create_many`): `n` independent
constructions, each from its own draw stream. -/
def create_many_parallel (num_creatures : Nat) (parameter_options : List String)
    (max_layers : Nat) (supply : Nat → Draws) : List Creature :=
  (List.range num_creatures).map (fun i => (Creature.new parameter_options max_layers (supply i)).1)

/-- The closure `modified_coefficients` of `Creature::mutate`: `c`, `b`, `z`
each gain a Normal(0, modify_value) perturbation (a standard-normal draw
scaled by `mv`), then one draw decides the exponent update — increment with
probability 0.2 (u8 arithmetic: mod 256), guarded decrement with
probability 0.2, else unchanged. -/
def mutateCoefficients (mv : ℚ) (co : Coefficients) (s : Draws) : Coefficients × Draws :=
  let (n1, s) := draw s
  let (n2, s) := draw s
  let (n3, s) := draw s
  let (u, s) := draw s
  let x :=
    if u < 0.2 then (co.x + 1) % 256
    else if u < 0.4 ∧ co.x > 1 then co.x - 1
    else co.x
  (⟨co.c + mv * n1, co.b + mv * n2, co.z + mv * n3, x⟩, s)

/-- The modifier-map rebuild inside `Creature::mutate`: same keys, each
coefficient perturbed. -/
def mutateModifiers (mv : ℚ) :
    List (String × Coefficients) → Draws → List (String × Coefficients) × Draws
  | [], s => ([], s)
  | (p, co) :: rest, s =>
    let (co2, s) := mutateCoefficients mv co s
    let (rest2, s) := mutateModifiers mv rest s
    ((p, co2) :: rest2, s)

/-- One layer of `Creature::mutate`: the bias coin flip (noise added with
probability 0.5), then the previous-layer coefficients, then the modifiers,
in source order. -/
def mutateLayer (mv : ℚ) (lm : LayerModifiers) (s : Draws) : LayerModifiers × Draws :=
  let (u, s) := draw s
  let (layer_bias, s) :=
    if u < 0.5 then
      let (n, s) := draw s
      (lm.layer_bias + mv * n, s)
    else (lm.layer_bias, s)
  let (previous_layer_coefficients, s) :=
    match lm.previous_layer_coefficients with
    | some co =>
      let (co2, s) := mutateCoefficients mv co s
      (some co2, s)
    | none => (none, s)
  let (modifiers, s) := mutateModifiers mv lm.modifiers s
  (⟨modifiers, previous_layer_coefficients, layer_bias⟩, s)

/-- The layer loop of `Creature::mutate`. -/
def mutateLayers (mv : ℚ) : List LayerModifiers → Draws → List LayerModifiers × Draws
  | [], s => ([], s)
  | lm :: rest, s =>
    let (lm2, s) := mutateLayer mv lm s
    let (rest2, s) := mutateLayers mv rest s
    (lm2 :: rest2, s)

/-- `Creature::mutate`: perturb every layer, clear the error cache, and
bump the `u8` generation (mod 256). -/
def Creature.mutate (cr : Creature) (mutate_speed : MutateSpeed) (s : Draws) :
    Creature × Draws :=
  let mv := modifyValue mutate_speed
  let (new_equation, s) := mutateLayers mv cr.equation s
  (⟨new_equation, none, (cr.generation + 1) % 256⟩, s)

/-- The cached error of a creature; the source unwraps the `Option` (every
caller has it set), modelled with default 0. -/
def errOf (c : Creature) : ℚ :=
  c.cached_error_sum.getD 0

/-- `calc_error_sum`: mean of `(creature.calculate(point) - point[target])^2`
over all rows; the `expect` on a missing target is modelled with default 0
(theorems that use this assume the target is present in every row). -/
def calc_error_sum (creature : Creature) (rows : List Row) (target : String) : ℚ :=
  ((rows.map (fun point =>
    (creature.calculate point - (point.lookup target).getD 0) ^ 2)).sum) / rows.length

/-- The evaluation pass of the evolution loop (src/evolution.rs lines 38-43
and 119-124): a creature with no cached error gets the mean-squared error
cached; a creature with a cache is left untouched. -/
def evaluateStep (creatures : List Creature) (rows : List Row) (target : String) :
    List Creature :=
  creatures.map (fun creature =>
    match creature.cached_error_sum with
    | none => ⟨creature.equation, some (calc_error_sum creature rows target), creature.generation⟩
    | some _ => creature)

/-- `error_results`: sort the cached errors ascending, return
`(errors[0], errors[len / 2])`; an empty population panics on the indexing
(`errors[0]` / `errors[len/2]`), modelled as an `Except.error`. -/
def error_results (creatures : List Creature) : Except String (ℚ × ℚ) :=
  let sorted := (creatures.map errOf).insertionSort (fun a b => a ≤ b)
  match sorted with
  | [] => Except.error "index out of bounds: the len is 0 but the index is 0"
  | e :: _ => Except.ok (e, sorted.getD (sorted.length / 2) 0)

/-- `kill_weak_creatures`: keep exactly the creatures whose cached error is
strictly below the median. -/
def kill_weak_creatures (creatures : List Creature) (median_error : ℚ) : List Creature :=
  creatures.filter (fun creature => decide (errOf creature < median_error))

/-- The mutant-building map of `mutated_top_creatures`: one Fast mutant per
qualifying creature, each mutation from its own draw stream. -/
def mutateAll (supply : Nat → Draws) : List Creature → Nat → List Creature
  | [], _ => []
  | c :: rest, i => (Creature.mutate c MutateSpeed.Fast (supply i)).1 :: mutateAll supply rest (i + 1)

/-- `mutated_top_creatures`: filter the (already culled) creatures to those
with error below `(min_error + median_error) / 2`, and mutate each one at
Fast speed. -/
def mutated_top_creatures (creatures : List Creature) (min_error median_error : ℚ)
    (supply : Nat → Draws) : List Creature :=
  let error_cutoff := (min_error + median_error) / 2
  mutateAll supply (creatures.filter (fun cr => decide (errOf cr < error_cutoff))) 0

/-- The truncate-then-refill tail of each cycle (src/evolution.rs lines
57-64): truncate to `num_creatures`, then top up with fresh random
creatures when undersized. -/
def truncateAndRefill (creatures : List Creature) (num_creatures : Nat)
    (parameter_options : List String) (max_layers : Nat) (supply : Nat → Draws) :
    List Creature :=
  let truncated := creatures.take num_creatures
  if truncated.length < num_creatures then
    truncated ++ create_many_parallel (num_creatures - truncated.length)
      parameter_options max_layers supply
  else truncated

/-- One full cycle of the evolution loop (src/evolution.rs lines 37-65):
evaluate, rank, record the champion, cull, add Fast mutants of the top
creatures, truncate-then-refill.  The champion lookup `expect` is modelled
as an `Except.error`. -/
def cycleBody (rows : List Row) (target : String) (parameter_options : List String)
    (num_creatures max_layers : Nat) (mutSupply newSupply : Nat → Draws)
    (creatures bests : List Creature) : Except String (List Creature × List Creature) :=
  let evaluated := evaluateStep creatures rows target
  match error_results evaluated with
  | Except.error e => Except.error e
  | Except.ok (min_error, median_error) =>
    match evaluated.find? (fun c => c.cached_error_sum == some min_error) with
    | none => Except.error "Error matching min_error to a creature!"
    | some best_creature =>
      let bests2 := bests ++ [best_creature]
      let survivors := kill_weak_creatures evaluated median_error
      let pool := survivors ++ mutated_top_creatures survivors min_error median_error mutSupply
      Except.ok (truncateAndRefill pool num_creatures parameter_options max_layers newSupply, bests2)

/-- The cycle loop of `Evolution::new`, by fuel on the remaining cycles. -/
def runCycles (rows : List Row) (target : String) (parameter_options : List String)
    (num_creatures max_layers : Nat) (mutSupply newSupply : Nat → Nat → Draws) :
    Nat → List Creature → List Creature → Except String (List Creature × List Creature)
  | 0, creatures, bests => Except.ok (creatures, bests)
  | k + 1, creatures, bests =>
    match cycleBody rows target parameter_options num_creatures max_layers
        (mutSupply k) (newSupply k) creatures bests with
    | Except.error e => Except.error e
    | Except.ok (c, b) => runCycles rows target parameter_options num_creatures max_layers
        mutSupply newSupply k c b

/-- The state of `optimize_creature`: running best error, running best
creature, the per-round history of minimum errors, and the current speed. -/
structure OptState where
  bestError : ℚ
  best : Creature
  errors : List ℚ
  speed : MutateSpeed

/-- Total (default-valued) version of `error_results` for the refinement
rounds, whose candidate set is never empty. -/
def errorResultsD (creatures : List Creature) : ℚ × ℚ :=
  match error_results creatures with
  | Except.ok p => p
  | Except.error _ => (0, 0)

/-- One round of `optimize_creature` (src/evolution.rs lines 115-139):
candidates are the current best plus 500 mutants at the current speed; all
are scored; a strictly better minimum is adopted; after round index 5 a
relative-improvement plateau switches the speed to Fine. -/
def optimizeRound (rows : List Row) (target : String) (supply : Nat → Draws)
    (i : Nat) (s : OptState) : OptState :=
  let creatures := s.best ::
    (List.range 500).map (fun j => (Creature.mutate s.best s.speed (supply (501 * i + j))).1)
  let evaluated := evaluateStep creatures rows target
  let (min_error, _median_error) := errorResultsD evaluated
  let errors2 := s.errors ++ [min_error]
  let bestError2 := if min_error < s.bestError then min_error else s.bestError
  let best2 :=
    if min_error < s.bestError then
      (evaluated.find? (fun c => c.cached_error_sum == some min_error)).getD s.best
    else s.best
  let speed2 :=
    if i > 5 ∧ min_error / errors2.getD (errors2.length - 4) 0 > 0.9999 then MutateSpeed.Fine
    else s.speed
  ⟨bestError2, best2, errors2, speed2⟩

/-- The round loop of `optimize_creature` (`for i in 0..=iterations`),
by fuel on the remaining rounds, carrying the round index. -/
def optimizeGo (rows : List Row) (target : String) (supply : Nat → Draws) :
    Nat → Nat → OptState → OptState
  | _, 0, s => s
  | i, fuel + 1, s => optimizeGo rows target supply (i + 1) fuel (optimizeRound rows target supply i s)

/-- The initial state of `optimize_creature`: running best error is the
input creature's cached error. -/
def optInit (creature : Creature) : OptState :=
  ⟨errOf creature, creature, [], MutateSpeed.Fast⟩

/-- `optimize_creature`: run rounds 0..=iterations and return the best. -/
def optimize_creature (creature : Creature) (rows : List Row) (target : String)
    (iterations : Nat) (supply : Nat → Draws) : Creature :=
  (optimizeGo rows target supply 0 (iterations + 1) (optInit creature)).best

/-- The `Evolution` struct (the `Standardizer` field is external to src/ and
is abstracted away; `Evolution::new` below takes the standardization
transform as an opaque parameter). -/
structure Evolution where
  target : String
  num_creatures : Nat
  num_cycles : Nat
  best_creatures : List Creature
  best_creature : Creature

/-- `Evolution::new`: standardize the data, build the initial population from
the non-target parameters of the first row, run the cycles, pick the overall
best champion (fold from the arbitrarily large seed 100_000_000_000, then a
lookup whose `expect` is modelled as an error), and refine it for 30
iterations.  Indexing `data[0]` of empty data is the index-out-of-bounds
panic. -/
def Evolution.new (target : String) (data : List Row)
    (num_creatures num_cycles max_layers : Nat)
    (standardize : List Row → List Row)
    (initSupply : Nat → Draws) (mutSupply newSupply : Nat → Nat → Draws)
    (optSupply : Nat → Draws) : Except String Evolution :=
  match data with
  | [] => Except.error "index out of bounds: the len is 0 but the index is 0"
  | d0 :: _ =>
    let param_options := (d0.map Prod.fst).filter (fun p => decide (p ≠ target))
    let standardized_data := standardize data
    let initial := create_many_parallel num_creatures param_options max_layers initSupply
    match runCycles standardized_data target param_options num_creatures max_layers
        mutSupply newSupply num_cycles initial [] with
    | Except.error e => Except.error e
    | Except.ok (_, best_creatures) =>
      let min_error := best_creatures.foldl (fun m c =>
        match c.cached_error_sum with
        | some error => if error < m then error else m
        | none => m) (100000000000 : ℚ)
      match best_creatures.find? (fun c => c.cached_error_sum == some min_error) with
      | none => Except.error "Error matching min_error to a creature!"
      | some best =>
        Except.ok ⟨target, num_creatures, num_cycles, best_creatures,
          optimize_creature best standardized_data target 30 optSupply⟩

/-- The layered recurrence exactly as claim C1 states it: each layer's inner
sum starts from zero, so a layer's total is its own parameter contributions,
plus the previous-layer term applied to the prior total, plus its bias. -/
def calculateLayerReset (parameters : Row) (equation : List LayerModifiers) : ℚ :=
  equation.foldl (fun total lm =>
    paramContribution lm parameters + prevContribution lm total + lm.layer_bias) 0

/-- Every `Coefficients` value stored in one layer: the modifier terms and
the previous-layer term when present. -/
def layerCoeffs (lm : LayerModifiers) : List Coefficients :=
  lm.modifiers.map Prod.snd ++
    (match lm.previous_layer_coefficients with
     | some co => [co]
     | none => [])

/-- Every `Coefficients` value stored in a creature. -/
def creatureCoeffs (cr : Creature) : List Coefficients :=
  cr.equation.flatMap layerCoeffs

/-- Every stored exponent is at least 1. -/
def allXInRange (cr : Creature) : Bool :=
  (creatureCoeffs cr).all (fun co => decide (1 ≤ co.x))

/-- Every stored exponent is at least 1 and an increment cannot wrap the
`u8` field. -/
def allXSafe (cr : Creature) : Bool :=
  (creatureCoeffs cr).all (fun co => decide (1 ≤ co.x ∧ co.x + 1 < 256))

/-- Default creature for indexed access. -/
def blankCreature : Creature := ⟨[], none, 1⟩

/-- Default layer for indexed access. -/
def defaultLayer : LayerModifiers := ⟨[], none, 0⟩

/-- The parameter names referenced by a layer's modifiers. -/
def layerKeys (lm : LayerModifiers) : List String :=
  lm.modifiers.map Prod.fst

/-- The identity power term `1 * (1*v + 0)^1`. -/
def unitCoefficients : Coefficients := ⟨1, 1, 0, 1⟩

/-- First layer of the C1 example: one modifier on parameter `p`, no bias. -/
def c1LayerOne : LayerModifiers := ⟨[("p", unitCoefficients)], none, 0⟩

/-- Second layer of the C1 example: no modifiers, an identity previous-layer
term, no bias. -/
def c1LayerTwo : LayerModifiers := ⟨[], some unitCoefficients, 0⟩

/-- A two-layer creature on which the accumulated inner sum is observable. -/
def c1Creature : Creature := ⟨[c1LayerOne, c1LayerTwo], none, 1⟩

/-- The input row for the C1 example. -/
def c1Row : Row := [("p", 1)]

/-- A creature built by `Creature::new` from concrete draws (all 9/10),
giving one layer with one modifier whose exponent is 3. -/
def c2Parent : Creature := (Creature.new ["p"] 3 (List.replicate 16 (9 / 10))).1

/-- A one-step mutant of `c2Parent` whose draw stream takes the
increment branch for the exponent. -/
def c2Mutant : Creature := (Creature.mutate c2Parent MutateSpeed.Fast []).1

/-- A creature with all cached error set to `e` and no layers. -/
def cachedCreature (e : ℚ) : Creature := ⟨[], some e, 1⟩

/-- Concrete population with cached errors 1, 2, 3. -/
def c4Pop : List Creature := [cachedCreature 1, cachedCreature 2, cachedCreature 3]

/-- Concrete population with one unevaluated and one evaluated creature. -/
def c6Pop : List Creature := [⟨[], none, 1⟩, ⟨[], some 5, 2⟩]

/-- Concrete rows containing the target parameter `t`. -/
def c6Rows : List Row := [[("t", 1)], [("t", 3)]]

/-- A creature at the `u8` generation ceiling. -/
def c7Creature : Creature := ⟨[], none, 255⟩

/-- A draw supply with every stream exhausted. -/
def emptySupply : Nat → Draws := fun _ => []

/-- The C4 claim, phrased over the embedded reproduction operations: the cull
keeps exactly the creatures strictly below the median (the upper-median of
the sorted cached errors), each survivor strictly below
`(min + median) / 2` contributes exactly one Fast-speed mutant, and the
survivors themselves stay in the reproduction pool. -/
def cullAndMutantsSpec (pop : List Creature) (supply : Nat → Draws) (minE medE : ℚ) : Prop :=
  (∀ c, c ∈ kill_weak_creatures pop medE ↔ c ∈ pop ∧ errOf c < medE) ∧
  medE = ((pop.map errOf).insertionSort (fun a b => a ≤ b)).getD (pop.length / 2) 0 ∧
  ((mutated_top_creatures (kill_weak_creatures pop medE) minE medE supply).length
    = ((kill_weak_creatures pop medE).filter
        (fun cr => decide (errOf cr < (minE + medE) / 2))).length) ∧
  (∀ i, i < ((kill_weak_creatures pop medE).filter
        (fun cr => decide (errOf cr < (minE + medE) / 2))).length →
    (mutated_top_creatures (kill_weak_creatures pop medE) minE medE supply).getD i blankCreature
      = (Creature.mutate (((kill_weak_creatures pop medE).filter
           (fun cr => decide (errOf cr < (minE + medE) / 2))).getD i blankCreature)
          MutateSpeed.Fast (supply i)).1) ∧
  (∀ c, c ∈ kill_weak_creatures pop medE →
    c ∈ kill_weak_creatures pop medE
        ++ mutated_top_creatures (kill_weak_creatures pop medE) minE medE supply)

/-- The C6 claim, phrased over the embedded evaluation pass: position by
position, an unset cache becomes the mean squared error over all rows and a
set cache leaves the creature untouched. -/
def evaluationSpec (pop : List Creature) (rows : List Row) (target : String) : Prop :=
  (evaluateStep pop rows target).length = pop.length ∧
  ∀ i, i < pop.length →
    ((pop.getD i blankCreature).cached_error_sum = none →
      (evaluateStep pop rows target).getD i blankCreature
        = ⟨(pop.getD i blankCreature).equation,
           some ((rows.map (fun point =>
              ((pop.getD i blankCreature).calculate point
                - (point.lookup target).getD 0) ^ 2)).sum / rows.length),
           (pop.getD i blankCreature).generation⟩) ∧
    (∀ e, (pop.getD i blankCreature).cached_error_sum = some e →
      (evaluateStep pop rows target).getD i blankCreature = pop.getD i blankCreature)

theorem buildLayers_length (parameter_options : List String) :
    ∀ (count : Nat) (first : Bool) (s : Draws),
      (buildLayers parameter_options count first s).1.length = count := by
  intro count
  induction count with
  | zero => intro first s; rfl
  | succ k ih =>
    intro first s
    simp only [buildLayers]
    rcases LayerModifiers.new first parameter_options s with ⟨lm, s1⟩
    rcases h : buildLayers parameter_options k false s1 with ⟨rest, s2⟩
    simpa [h] using ih false s1

theorem num_layers_cases (u : ℚ) :
    num_layers u = 1 ∨ num_layers u = 2 ∨ num_layers u = 3 := by
  unfold num_layers
  rcases i : ⌊u⌋.toNat % 6 with _ | _ | _ | _ | _ | _ | j <;> simp [List.getD]

theorem create_many_parallel_length (num_creatures : Nat) (parameter_options : List String)
    (max_layers : Nat) (supply : Nat → Draws) :
    (create_many_parallel num_creatures parameter_options max_layers supply).length
      = num_creatures := by
  simp [create_many_parallel]

theorem creature_new_equation_length (parameter_options : List String) (max_layers : Nat)
    (s : Draws) :
    (Creature.new parameter_options max_layers s).1.equation.length
      = if num_layers (draw s).1 > max_layers then max_layers else num_layers (draw s).1 := by
  unfold Creature.new
  rcases hd : draw s with ⟨u, s1⟩
  simp only
  rcases hb : buildLayers parameter_options
      (if num_layers u > max_layers then max_layers else num_layers u) true s1 with ⟨eq, s2⟩
  have := buildLayers_length parameter_options
      (if num_layers u > max_layers then max_layers else num_layers u) true s1
  rw [hb] at this
  simpa using this

/-- C8 (counterexample): with `max_layers = 0`, `Creature::new` caps the drawn
layer count at 0 and produces a creature with zero layers, violating the
claimed lower bound `1 ≤ layer_count` for every `max_layers` argument. -/
theorem c8_counterexample_zero_max_layers :
    ¬ (1 ≤ (Creature.new ["p"] 0 []).1.equation.length) := by
  with_unfolding_all decide

/-- C8 (amended): for every parameter list, every draw stream, and every
`max_layers ≥ 1`, a creature built by `Creature::new` has between 1 and
`max_layers` layers. -/
theorem c8_amended_layer_count_bounds (parameter_options : List String) (max_layers : Nat)
    (s : Draws) (h : 1 ≤ max_layers) :
    1 ≤ (Creature.new parameter_options max_layers s).1.equation.length ∧
    (Creature.new parameter_options max_layers s).1.equation.length ≤ max_layers := by
  rw [creature_new_equation_length]
  rcases num_layers_cases (draw s).1 with h1 | h1 | h1 <;> rw [h1] <;>
    constructor <;> split <;> omega

/-- C8 witness: the amended bounds at a concrete input. -/
theorem c8_witness :
    1 ≤ 3 ∧ (1 ≤ (Creature.new ["p"] 3 []).1.equation.length ∧
      (Creature.new ["p"] 3 []).1.equation.length ≤ 3) :=
  ⟨by decide, c8_amended_layer_count_bounds ["p"] 3 [] (by decide)⟩

/-- C1 (counterexample): on a two-layer creature with an identity modifier in
layer 1 and an identity previous-layer term in layer 2, `Creature::calculate`
returns 2 (the inner sum carries layer 1's contribution into layer 2) while
the claimed recurrence with a per-layer reset of the inner sum returns 1. -/
theorem c1_counterexample :
    Creature.calculate c1Creature c1Row ≠ calculateLayerReset c1Row c1Creature.equation := by
  with_unfolding_all decide

/-- C1 (amended): `Creature::calculate` is the layered recurrence whose inner
sum is NOT reset between layers: from `(inner, total) = (0, 0)`, appending a
layer sets `inner` to the previous `inner` plus this layer's parameter
contributions plus the previous-layer term applied to the previous total,
and `total` to the new `inner` plus this layer's bias; the final total is
the returned output. -/
theorem c1_amended_layer_recurrence (cr : Creature) (parameters : Row) :
    cr.calculate parameters = (cr.equation.foldl (layerStep parameters) (0, 0)).2 ∧
    (([] : List LayerModifiers).foldl (layerStep parameters) (0, 0)) = (0, 0) ∧
    ∀ (eq : List LayerModifiers) (lm : LayerModifiers),
      ((eq ++ [lm]).foldl (layerStep parameters) (0, 0)).1
          = (eq.foldl (layerStep parameters) (0, 0)).1 + paramContribution lm parameters
            + prevContribution lm (eq.foldl (layerStep parameters) (0, 0)).2 ∧
      ((eq ++ [lm]).foldl (layerStep parameters) (0, 0)).2
          = ((eq ++ [lm]).foldl (layerStep parameters) (0, 0)).1 + lm.layer_bias := by
  refine ⟨rfl, rfl, fun eq lm => ?_⟩
  rw [List.foldl_append]
  exact ⟨rfl, rfl⟩

/-- C5 (confirmed): the truncate-then-refill tail of each cycle always
restores the population to exactly `num_creatures`, whatever the mid-cycle
population was. -/
theorem c5_population_size_invariant (creatures : List Creature) (num_creatures : Nat)
    (parameter_options : List String) (max_layers : Nat) (supply : Nat → Draws)
    (h : 0 < num_creatures) :
    (truncateAndRefill creatures num_creatures parameter_options max_layers supply).length
      = num_creatures := by
  unfold truncateAndRefill
  dsimp only
  have htake : (creatures.take num_creatures).length ≤ num_creatures := by
    simp [List.length_take]
  split
  · rw [List.length_append, create_many_parallel_length]
    omega
  · omega

/-- C5 witness: the size invariant at a concrete undersized pool. -/
theorem c5_witness :
    0 < 2 ∧ (truncateAndRefill [] 2 ["p"] 3 emptySupply).length = 2 :=
  ⟨by decide, c5_population_size_invariant [] 2 ["p"] 3 emptySupply (by decide)⟩

theorem mutateModifiers_fst (mv : ℚ) :
    ∀ (mods : List (String × Coefficients)) (s : Draws),
      ((mutateModifiers mv mods s).1).map Prod.fst = mods.map Prod.fst := by
  intro mods
  induction mods with
  | nil => intro s; rfl
  | cons pc rest ih =>
    intro s
    rcases pc with ⟨p, co⟩
    simp only [mutateModifiers]
    rcases mutateCoefficients mv co s with ⟨co2, s1⟩
    rcases h : mutateModifiers mv rest s1 with ⟨rest2, s2⟩
    simpa [h] using ih s1

theorem mutateLayer_shape (mv : ℚ) (lm : LayerModifiers) (s : Draws) :
    layerKeys (mutateLayer mv lm s).1 = layerKeys lm ∧
    ((mutateLayer mv lm s).1).previous_layer_coefficients.isSome
      = lm.previous_layer_coefficients.isSome := by
  unfold mutateLayer
  rcases hp : lm.previous_layer_coefficients with _ | co <;>
    simp only [hp, layerKeys] <;>
    split <;>
    simp [mutateModifiers_fst]

theorem mutateLayers_length (mv : ℚ) :
    ∀ (eqn : List LayerModifiers) (s : Draws),
      (mutateLayers mv eqn s).1.length = eqn.length := by
  intro eqn
  induction eqn with
  | nil => intro s; rfl
  | cons lm rest ih =>
    intro s
    simp only [mutateLayers]
    rcases mutateLayer mv lm s with ⟨lm2, s1⟩
    rcases h : mutateLayers mv rest s1 with ⟨rest2, s2⟩
    simpa [h] using ih s1

theorem mutateLayers_getD_shape (mv : ℚ) :
    ∀ (eqn : List LayerModifiers) (s : Draws) (i : Nat),
      layerKeys ((mutateLayers mv eqn s).1.getD i defaultLayer)
          = layerKeys (eqn.getD i defaultLayer) ∧
      ((mutateLayers mv eqn s).1.getD i defaultLayer).previous_layer_coefficients.isSome
          = (eqn.getD i defaultLayer).previous_layer_coefficients.isSome := by
  intro eqn
  induction eqn with
  | nil => intro s i; exact ⟨rfl, rfl⟩
  | cons lm rest ih =>
    intro s i
    simp only [mutateLayers]
    rcases hl : mutateLayer mv lm s with ⟨lm2, s1⟩
    rcases h : mutateLayers mv rest s1 with ⟨rest2, s2⟩
    simp only
    cases i with
    | zero =>
      have := mutateLayer_shape mv lm s
      rw [hl] at this
      simpa using this
    | succ j =>
      have := ih s1 j
      rw [h] at this
      simpa using this

/-- C7 (counterexample): a creature at generation 255 (reachable after 254
mutations) does not get generation 256 — the `u8` generation counter wraps
(release builds) or panics (debug builds); the model wraps, giving 0. -/
theorem c7_counterexample_generation_overflow :
    (Creature.mutate c7Creature MutateSpeed.Fast []).1.generation
      ≠ c7Creature.generation + 1 := by
  with_unfolding_all decide

/-- C7 (amended): for every creature, speed, and draw stream, the mutant has
the same number of layers, the same parameter names per layer, and a
previous-layer term in exactly the same layers; its cache is cleared and its
generation is the parent's plus one modulo 256 (`u8` wrap) — equal to
`parent.generation + 1` whenever that sum stays below 256. -/
theorem c7_amended_mutation_frame (cr : Creature) (speed : MutateSpeed) (s : Draws) :
    (Creature.mutate cr speed s).1.equation.length = cr.equation.length ∧
    (∀ i, layerKeys ((Creature.mutate cr speed s).1.equation.getD i defaultLayer)
        = layerKeys (cr.equation.getD i defaultLayer)) ∧
    (∀ i, ((Creature.mutate cr speed s).1.equation.getD i
          defaultLayer).previous_layer_coefficients.isSome
        = (cr.equation.getD i defaultLayer).previous_layer_coefficients.isSome) ∧
    (Creature.mutate cr speed s).1.generation = (cr.generation + 1) % 256 ∧
    (Creature.mutate cr speed s).1.cached_error_sum = none := by
  have hmut : (Creature.mutate cr speed s).1
      = ⟨(mutateLayers (modifyValue speed) cr.equation s).1, none,
          (cr.generation + 1) % 256⟩ := by
    unfold Creature.mutate
    rcases h : mutateLayers (modifyValue speed) cr.equation s with ⟨eq2, s2⟩
    simp [h]
  rw [hmut]
  exact ⟨mutateLayers_length (modifyValue speed) cr.equation s,
    fun i => (mutateLayers_getD_shape (modifyValue speed) cr.equation s i).1,
    fun i => (mutateLayers_getD_shape (modifyValue speed) cr.equation s i).2,
    rfl, rfl⟩

theorem coefficients_new_x (s : Draws) :
    (Coefficients.new s).1.x = 1 ∨ (Coefficients.new s).1.x = 2
      ∨ (Coefficients.new s).1.x = 3 := by
  unfold Coefficients.new
  dsimp only
  repeat' split
  all_goals simp

theorem mutateCoefficients_x (mv : ℚ) (co : Coefficients) (s : Draws)
    (h1 : 1 ≤ co.x) (h2 : co.x + 1 < 256) :
    1 ≤ (mutateCoefficients mv co s).1.x := by
  unfold mutateCoefficients
  dsimp only
  split
  · rw [Nat.mod_eq_of_lt h2]; omega
  · split <;> omega

theorem mutateModifiers_x (mv : ℚ) :
    ∀ (mods : List (String × Coefficients)) (s : Draws),
      (∀ pc ∈ mods, 1 ≤ pc.2.x ∧ pc.2.x + 1 < 256) →
      ∀ pc2 ∈ (mutateModifiers mv mods s).1, 1 ≤ pc2.2.x := by
  intro mods
  induction mods with
  | nil => intro s _ pc2 hpc2; simp [mutateModifiers] at hpc2
  | cons pc rest ih =>
    intro s hall pc2 hpc2
    rcases pc with ⟨p, co⟩
    simp only [mutateModifiers] at hpc2
    rcases hc : mutateCoefficients mv co s with ⟨co2, s1⟩
    rw [hc] at hpc2
    rcases hm : mutateModifiers mv rest s1 with ⟨rest2, s2⟩
    rw [hm] at hpc2
    simp only [List.mem_cons] at hpc2
    rcases hpc2 with h | h
    · subst h
      have hco := hall (p, co) (by simp)
      have := mutateCoefficients_x mv co s hco.1 hco.2
      rw [hc] at this
      exact this
    · have := ih s1 (fun q hq => hall q (by simp [hq])) pc2
      rw [hm] at this
      exact this h

theorem mutateLayer_x (mv : ℚ) (lm : LayerModifiers) (s : Draws)
    (h : ∀ co ∈ layerCoeffs lm, 1 ≤ co.x ∧ co.x + 1 < 256) :
    ∀ co2 ∈ layerCoeffs (mutateLayer mv lm s).1, 1 ≤ co2.x := by
  have hmods : ∀ pc ∈ lm.modifiers, 1 ≤ pc.2.x ∧ pc.2.x + 1 < 256 := by
    intro pc hpc
    exact h pc.2 (by simp [layerCoeffs]; exact Or.inl ⟨pc.1, hpc⟩)
  intro co2 hco2
  unfold mutateLayer at hco2
  rcases hp : lm.previous_layer_coefficients with _ | co
  · simp only [hp, layerCoeffs] at hco2
    simp only [List.append_nil, List.mem_map] at hco2
    rcases hco2 with ⟨pc2, hpc2, rfl⟩
    exact mutateModifiers_x mv lm.modifiers _ hmods pc2 hpc2
  · have hco : 1 ≤ co.x ∧ co.x + 1 < 256 := h co (by simp [layerCoeffs, hp])
    simp only [hp, layerCoeffs] at hco2
    simp only [List.mem_append, List.mem_map, List.mem_singleton] at hco2
    rcases hco2 with ⟨pc2, hpc2, rfl⟩ | rfl
    · exact mutateModifiers_x mv lm.modifiers _ hmods pc2 hpc2
    · exact mutateCoefficients_x mv co _ hco.1 hco.2

theorem mutateLayers_x (mv : ℚ) :
    ∀ (eqn : List LayerModifiers) (s : Draws),
      (∀ lm ∈ eqn, ∀ co ∈ layerCoeffs lm, 1 ≤ co.x ∧ co.x + 1 < 256) →
      ∀ lm2 ∈ (mutateLayers mv eqn s).1, ∀ co2 ∈ layerCoeffs lm2, 1 ≤ co2.x := by
  intro eqn
  induction eqn with
  | nil => intro s _ lm2 hlm2; simp [mutateLayers] at hlm2
  | cons lm rest ih =>
    intro s hall lm2 hlm2
    simp only [mutateLayers] at hlm2
    rcases hl : mutateLayer mv lm s with ⟨lmm, s1⟩
    rw [hl] at hlm2
    rcases hr : mutateLayers mv rest s1 with ⟨rest2, s2⟩
    rw [hr] at hlm2
    simp only [List.mem_cons] at hlm2
    rcases hlm2 with h | h
    · subst h
      intro co2 hco2
      have := mutateLayer_x mv lm s (hall lm (by simp)) co2
      rw [hl] at this
      exact this hco2
    · have := ih s1 (fun q hq => hall q (by simp [hq])) lm2
      rw [hr] at this
      exact this h

theorem creature_mutate_equation (cr : Creature) (speed : MutateSpeed) (s : Draws) :
    (Creature.mutate cr speed s).1
      = ⟨(mutateLayers (modifyValue speed) cr.equation s).1, none,
          (cr.generation + 1) % 256⟩ := by
  unfold Creature.mutate
  rcases h : mutateLayers (modifyValue speed) cr.equation s with ⟨eq2, s2⟩
  simp [h]

/-- C2 (counterexample): a creature built by `Creature::new` (one layer, one
modifier with exponent 3), mutated once by `Creature::mutate` with a draw
stream taking the increment branch, holds a coefficient with exponent 4 —
outside the claimed invariant set {1,2,3}. -/
theorem c2_counterexample_x_exceeds_three :
    (creatureCoeffs c2Parent).map Coefficients.x = [3] ∧
    (creatureCoeffs c2Mutant).map Coefficients.x = [4] ∧
    ¬ (∀ co ∈ creatureCoeffs c2Mutant, co.x = 1 ∨ co.x = 2 ∨ co.x = 3) := by
  refine ⟨by with_unfolding_all decide, by with_unfolding_all decide, ?_⟩
  intro h
  have hmap : (creatureCoeffs c2Mutant).map Coefficients.x = [4] := by
    with_unfolding_all decide
  rcases hc : creatureCoeffs c2Mutant with _ | ⟨co, rest⟩
  · rw [hc] at hmap; simp at hmap
  · rw [hc] at hmap
    simp only [List.map_cons, List.cons.injEq] at hmap
    have hx : co.x = 4 := hmap.1
    have hco := h co (by rw [hc]; simp)
    rw [hx] at hco
    simp at hco

/-- C2 (amended): construction always yields an exponent in {1,2,3}; one
mutation step keeps every exponent at least 1 provided no exponent is at the
`u8` ceiling (so the increment cannot wrap), but it may push an exponent
above 3, so {1,2,3} is not invariant. -/
theorem c2_amended_exponent_invariants :
    (∀ s : Draws, (Coefficients.new s).1.x = 1 ∨ (Coefficients.new s).1.x = 2
      ∨ (Coefficients.new s).1.x = 3) ∧
    (∀ (cr : Creature) (speed : MutateSpeed) (s : Draws),
      allXSafe cr = true → allXInRange (Creature.mutate cr speed s).1 = true) := by
  refine ⟨coefficients_new_x, fun cr speed s hsafe => ?_⟩
  have hsafe2 : ∀ lm ∈ cr.equation, ∀ co ∈ layerCoeffs lm, 1 ≤ co.x ∧ co.x + 1 < 256 := by
    intro lm hlm co hco
    have := (List.all_eq_true.mp hsafe) co
    simp only [decide_eq_true_iff] at this
    exact this (by simp [creatureCoeffs, List.mem_flatMap]; exact ⟨lm, hlm, hco⟩)
  rw [allXInRange, List.all_eq_true]
  intro co hco
  rw [decide_eq_true_iff]
  rw [creature_mutate_equation] at hco
  simp only [creatureCoeffs, List.mem_flatMap] at hco
  rcases hco with ⟨lm2, hlm2, hco2⟩
  exact mutateLayers_x (modifyValue speed) cr.equation s hsafe2 lm2 hlm2 co hco2

/-- C2 witness: the amended invariants at a concrete creature. -/
theorem c2_witness :
    allXSafe c1Creature = true ∧
    allXInRange (Creature.mutate c1Creature MutateSpeed.Fast []).1 = true :=
  ⟨by with_unfolding_all decide,
   c2_amended_exponent_invariants.2 c1Creature MutateSpeed.Fast []
     (by with_unfolding_all decide)⟩

theorem mutateAll_length (supply : Nat → Draws) :
    ∀ (l : List Creature) (i : Nat), (mutateAll supply l i).length = l.length := by
  intro l
  induction l with
  | nil => intro i; rfl
  | cons c rest ih => intro i; simp [mutateAll, ih]

theorem mutateAll_getD (supply : Nat → Draws) :
    ∀ (l : List Creature) (i j : Nat), j < l.length →
      (mutateAll supply l i).getD j blankCreature
        = (Creature.mutate (l.getD j blankCreature) MutateSpeed.Fast (supply (i + j))).1 := by
  intro l
  induction l with
  | nil => intro i j hj; simp at hj
  | cons c rest ih =>
    intro i j hj
    cases j with
    | zero => simp [mutateAll]
    | succ k =>
      simp only [mutateAll, List.getD_cons_succ]
      have := ih (i + 1) k (by simpa using hj)
      rw [this, show i + 1 + k = i + (k + 1) by omega]

theorem error_results_ok (creatures : List Creature) (minE medE : ℚ)
    (h : error_results creatures = Except.ok (minE, medE)) :
    medE = ((creatures.map errOf).insertionSort (fun a b => a ≤ b)).getD
      (creatures.length / 2) 0 := by
  unfold error_results at h
  have hlen : ((creatures.map errOf).insertionSort (fun a b => a ≤ b)).length
      = creatures.length := by
    rw [(List.perm_insertionSort _ _).length_eq, List.length_map]
  rcases hs : (creatures.map errOf).insertionSort (fun a b => a ≤ b) with _ | ⟨e, rest⟩
  · rw [hs] at h; simp at h
  · rw [hs] at h
    simp only [Except.ok.injEq, Prod.mk.injEq] at h
    rw [hs] at hlen
    rw [← hlen]
    exact h.2.symm

/-- C4 (confirmed): in the reproduction phase, the cull keeps exactly the
creatures with cached error strictly below the median (the element at index
`len / 2` of the ascending-sorted cached errors), and from those survivors
only, each one with error strictly below `(min + median) / 2` contributes
exactly one Fast-speed mutant while the survivors themselves stay in the
pool. -/
theorem c4_reproduction_cull_and_mutants (pop : List Creature) (supply : Nat → Draws)
    (minE medE : ℚ) (h : error_results pop = Except.ok (minE, medE)) :
    cullAndMutantsSpec pop supply minE medE := by
  refine ⟨?_, error_results_ok pop minE medE h, ?_, ?_, ?_⟩
  · intro c
    simp [kill_weak_creatures, List.mem_filter]
  · simp [mutated_top_creatures, mutateAll_length]
  · intro i hi
    simp only [mutated_top_creatures]
    have := mutateAll_getD supply
      ((kill_weak_creatures pop medE).filter
        (fun cr => decide (errOf cr < (minE + medE) / 2))) 0 i hi
    rw [this]
    simp
  · intro c hc
    exact List.mem_append_left _ hc

/-- C4 witness: the reproduction-phase characterization at a concrete
three-creature population with errors 1, 2, 3 (median 2, cutoff 1.5). -/
theorem c4_witness :
    error_results c4Pop = Except.ok (1, 2) ∧ cullAndMutantsSpec c4Pop emptySupply 1 2 :=
  ⟨by with_unfolding_all rfl,
   c4_reproduction_cull_and_mutants c4Pop emptySupply 1 2 (by with_unfolding_all rfl)⟩

/-- C6 (confirmed): the evaluation pass caches the mean squared error for
exactly the creatures whose cache is unset and leaves every creature with a
set cache untouched (hypothesis: every row carries the target parameter, the
region where `calc_error_sum` does not panic). -/
theorem c6_evaluation_memoization (pop : List Creature) (rows : List Row) (target : String)
    (htarget : ∀ r ∈ rows, (List.lookup target r).isSome = true) :
    evaluationSpec pop rows target := by
  refine ⟨by simp [evaluateStep], fun i hi => ?_⟩
  have hlen : i < (evaluateStep pop rows target).length := by
    simpa [evaluateStep] using hi
  have hgetD : (evaluateStep pop rows target).getD i blankCreature
      = (evaluateStep pop rows target)[i] := List.getD_eq_getElem _ _ hlen
  have hgetDp : pop.getD i blankCreature = pop[i] := List.getD_eq_getElem _ _ hi
  have hmap : (evaluateStep pop rows target)[i]
      = match (pop[i]).cached_error_sum with
        | none => ⟨(pop[i]).equation, some (calc_error_sum (pop[i]) rows target),
            (pop[i]).generation⟩
        | some _ => pop[i] := by
    simp [evaluateStep]
  rw [hgetDp, hgetD, hmap]
  constructor
  · intro hnone
    rw [hnone]
    simp [calc_error_sum]
  · intro e he
    rw [he]

/-- C6 witness: the evaluation pass at a concrete population and rows. -/
theorem c6_witness :
    (∀ r ∈ c6Rows, (List.lookup "t" r).isSome = true) ∧ evaluationSpec c6Pop c6Rows "t" :=
  ⟨by with_unfolding_all decide,
   c6_evaluation_memoization c6Pop c6Rows "t" (by with_unfolding_all decide)⟩

set_option maxRecDepth 4000 in
theorem optimizeRound_bestError_le (rows : List Row) (target : String) (supply : Nat → Draws)
    (i : Nat) (s : OptState) :
    (optimizeRound rows target supply i s).bestError ≤ s.bestError := by
  simp only [optimizeRound]
  split
  next h => exact le_of_lt h
  next => exact le_refl _

theorem optimizeGo_succ (rows : List Row) (target : String) (supply : Nat → Draws) :
    ∀ (fuel i : Nat) (s : OptState),
      optimizeGo rows target supply i (fuel + 1) s
        = optimizeRound rows target supply (i + fuel) (optimizeGo rows target supply i fuel s) := by
  intro fuel
  induction fuel with
  | zero => intro i s; simp [optimizeGo]
  | succ k ih =>
    intro i s
    have h1 : optimizeGo rows target supply i (k + 1 + 1) s
        = optimizeGo rows target supply (i + 1) (k + 1)
            (optimizeRound rows target supply i s) := rfl
    rw [h1, ih]
    have h2 : optimizeGo rows target supply i (k + 1) s
        = optimizeGo rows target supply (i + 1) k
            (optimizeRound rows target supply i s) := rfl
    rw [h2, show i + 1 + k = i + (k + 1) by omega]

/-- C9 (confirmed): the refinement pass's running best error never increases
from one round to the next — a round's minimum replaces it only when strictly
smaller — for every creature, data set, round count, and draw sequence; and
`optimize_creature` is exactly the run of these rounds from the creature's
cached error. -/
theorem c9_refinement_monotonic (rows : List Row) (target : String) (supply : Nat → Draws)
    (creature : Creature) (iterations k : Nat) :
    (optimizeGo rows target supply 0 (k + 1) (optInit creature)).bestError
        ≤ (optimizeGo rows target supply 0 k (optInit creature)).bestError ∧
    optimize_creature creature rows target iterations supply
        = (optimizeGo rows target supply 0 (iterations + 1) (optInit creature)).best := by
  constructor
  · rw [optimizeGo_succ]
    exact optimizeRound_bestError_le rows target supply (0 + k)
      (optimizeGo rows target supply 0 k (optInit creature))
  · rfl

theorem evaluateStep_all_some (rows : List Row) (target : String) :
    ∀ (pop : List Creature), (∀ c ∈ pop, c.cached_error_sum.isSome = true) →
      evaluateStep pop rows target = pop := by
  intro pop
  induction pop with
  | nil => intro _; rfl
  | cons c rest ih =>
    intro hall
    simp only [evaluateStep, List.map_cons]
    have hc := hall c (by simp)
    rcases hcc : c.cached_error_sum with _ | e
    · rw [hcc] at hc; simp at hc
    · have htail : evaluateStep rest rows target = rest := ih (fun q hq => hall q (by simp [hq]))
      simp only [evaluateStep] at htail
      rw [htail]

theorem error_results_const (pop : List Creature) (e : ℚ)
    (hne : pop ≠ []) (hall : ∀ c ∈ pop, errOf c = e) :
    error_results pop = Except.ok (e, e) := by
  unfold error_results
  have hmem : ∀ q ∈ (pop.map errOf).insertionSort (fun a b => a ≤ b), q = e := by
    intro q hq
    have hq2 : q ∈ pop.map errOf := ((List.perm_insertionSort _ _).mem_iff).mp hq
    rcases List.mem_map.mp hq2 with ⟨c, hc, rfl⟩
    exact hall c hc
  rcases hs : (pop.map errOf).insertionSort (fun a b => a ≤ b) with _ | ⟨a, rest⟩
  · have hlen : ((pop.map errOf).insertionSort (fun a b => a ≤ b)).length = pop.length := by
      rw [(List.perm_insertionSort _ _).length_eq, List.length_map]
    rw [hs] at hlen
    cases pop with
    | nil => exact absurd rfl hne
    | cons q qs => simp at hlen
  · rw [hs] at hmem
    have ha : a = e := hmem a (by simp)
    have hidx : (a :: rest).length / 2 < (a :: rest).length :=
      Nat.div_lt_self (by simp) (by norm_num)
    have hgd : (a :: rest).getD ((a :: rest).length / 2) 0
        = (a :: rest)[(a :: rest).length / 2] := List.getD_eq_getElem _ _ hidx
    have hmed : (a :: rest).getD ((a :: rest).length / 2) 0 = e := by
      rw [hgd]
      exact hmem _ (List.getElem_mem hidx)
    dsimp only
    rw [hmed, ha]

theorem truncateAndRefill_nil (n : Nat) (params : List String) (maxL : Nat)
    (supply : Nat → Draws) :
    truncateAndRefill [] n params maxL supply = create_many_parallel n params maxL supply := by
  unfold truncateAndRefill
  cases n with
  | zero => simp [create_many_parallel]
  | succ k => simp

/-- C10 (confirmed): when every creature entering a cycle carries the same
cached error, the cull removes everything (no error is strictly below the
median), no mutants are produced, and the refill rebuilds the whole
population from fresh random creatures; only the champion clone (the first
creature, by iteration order) survives, appended to the history. -/
theorem c10_equal_errors_full_replacement (rows : List Row) (target : String)
    (params : List String) (n maxL : Nat) (msup nsup : Nat → Draws)
    (c0 : Creature) (rest bests : List Creature) (e : ℚ)
    (hall : ∀ c ∈ c0 :: rest, c.cached_error_sum = some e) :
    cycleBody rows target params n maxL msup nsup (c0 :: rest) bests
      = Except.ok (create_many_parallel n params maxL nsup, bests ++ [c0]) := by
  have hsome : ∀ c ∈ c0 :: rest, c.cached_error_sum.isSome = true := by
    intro c hc; simp [hall c hc]
  have herr : ∀ c ∈ c0 :: rest, errOf c = e := by
    intro c hc; simp [errOf, hall c hc]
  unfold cycleBody
  dsimp only
  rw [evaluateStep_all_some rows target _ hsome]
  rw [error_results_const _ e (by simp) herr]
  dsimp only
  rw [List.find?_cons_of_pos _ (by simp [hall c0 (by simp)])]
  dsimp only
  have hkill : kill_weak_creatures (c0 :: rest) e = [] := by
    unfold kill_weak_creatures
    rw [List.filter_eq_nil_iff]
    intro c hc
    simp [herr c hc]
  rw [hkill]
  have hmut : mutated_top_creatures [] e e msup = [] := rfl
  rw [hmut]
  simp only [List.append_nil]
  rw [truncateAndRefill_nil]

/-- C10 witness: a concrete two-creature population with equal cached errors
is fully replaced by fresh constructions, with the first creature recorded
as champion. -/
theorem c10_witness :
    (∀ c ∈ [cachedCreature 2, cachedCreature 2], c.cached_error_sum = some 2) ∧
    cycleBody [] "t" ["p"] 2 3 emptySupply emptySupply
        [cachedCreature 2, cachedCreature 2] []
      = Except.ok (create_many_parallel 2 ["p"] 3 emptySupply, [] ++ [cachedCreature 2]) :=
  ⟨by with_unfolding_all decide,
   c10_equal_errors_full_replacement [] "t" ["p"] 2 3 emptySupply emptySupply
     (cachedCreature 2) [cachedCreature 2] [] 2 (by with_unfolding_all decide)⟩

/-- C3 (counterexample): calling `Evolution::new` with a cycle count of 0
(population 1) or a population size of 0 (cycle count 1) is not rejected at
construction time with a configuration error — no validation exists; the
model of the run returns the mid-run panics instead (the champion-selection
`expect` over an empty history, and the out-of-bounds indexing in
`error_results` over an empty population), both reached only after the
initial population construction step. -/
theorem c3_counterexample_no_config_error :
    Evolution.new "t" [[("t", 1)]] 1 0 3 id emptySupply (fun _ _ => []) (fun _ _ => [])
        emptySupply
      = Except.error "Error matching min_error to a creature!" ∧
    Evolution.new "t" [[("t", 1)]] 0 1 3 id emptySupply (fun _ _ => []) (fun _ _ => [])
        emptySupply
      = Except.error "index out of bounds: the len is 0 but the index is 0" :=
  ⟨rfl, rfl⟩

/-- C3 (amended): `Evolution::new` performs no validation of its arguments.
With a zero cycle count it panics while selecting the overall best from the
empty champion history; with a zero population size it panics indexing the
median of an empty error list in the first cycle — in both cases after the
initial population construction, and never with a structured configuration
error. -/
theorem c3_amended_zero_args_panic (target : String) (d0 : Row) (rest : List Row)
    (num_creatures num_cycles max_layers : Nat) (standardize : List Row → List Row)
    (initSupply : Nat → Draws) (mutSupply newSupply : Nat → Nat → Draws)
    (optSupply : Nat → Draws) :
    Evolution.new target (d0 :: rest) num_creatures 0 max_layers standardize initSupply
        mutSupply newSupply optSupply
      = Except.error "Error matching min_error to a creature!" ∧
    Evolution.new target (d0 :: rest) 0 (num_cycles + 1) max_layers standardize initSupply
        mutSupply newSupply optSupply
      = Except.error "index out of bounds: the len is 0 but the index is 0" := by
  constructor
  · rfl
  · have hinit : create_many_parallel 0
        ((d0.map Prod.fst).filter (fun p => decide (p ≠ target))) max_layers initSupply
          = [] := rfl
    unfold Evolution.new
    dsimp only
    rw [hinit]
    rfl
